import Mathlib

/-!
# Verification of the URL shortener core

A shallow embedding of the short-code allocation and resolution engine of the
URL-SHORTNER repository (Django application), together with theorems settling
the specification claims.

Conventions of the embedding:
* Database rows are Lean structures; the database is a `DB` structure holding
  the `URLShortener` rows (as `ShortLink`) and the `URLClick` rows
  (as `ClickEvent`).  Peripheral columns not touched by any claim
  (`created_by`, `title`, `description`, `domain`, `is_public`, `category`)
  are omitted.
* `DB.links` is kept newest-first: row creation prepends.  The model's default
  queryset ordering is `['-created_at']`, so `queryset.first()` is
  `List.head?` of the filtered list.
* Timestamps are `Nat`.  Randomness (`random.choice`) is an arbitrary stream
  `draw : Nat → Nat` of indices reduced modulo the alphabet size.  The MD5
  digest used by the fallback path of `generate_short_code` is abstracted by
  its 128-bit value `digest : Nat`; `hexdigest` is rendered faithfully as the
  32 lowercase hex characters of that value.
-/

set_option autoImplicit false

namespace UrlShortner

/-- A row of the `URLShortener` model (`shortener/models.py`). -/
structure ShortLink where
  id : Nat
  original_url : String
  short_code : String
  custom_alias : Option String
  click_count : Nat
  created_at : Nat
  updated_at : Nat
  expires_at : Option Nat
  is_active : Bool
  deriving Repr, DecidableEq

/-- A row of the `URLClick` model (`shortener/models.py`). -/
structure ClickEvent where
  url_id : Nat
  ip_address : String
  user_agent : String
  referer : Option String
  country : String
  city : String
  device_type : String
  browser : String
  os : String
  created_at : Nat
  deriving Repr, DecidableEq

/-- The database: `URLShortener` rows (newest first) and `URLClick` rows. -/
structure DB where
  links : List ShortLink
  clicks : List ClickEvent
  deriving Repr, DecidableEq

/-! ## Code Generator (`URLShortener.generate_short_code`, models.py lines 63-76) -/

/-- `string.ascii_letters + string.digits`: the 62-symbol alphabet. -/
def characters : List Char :=
  "abcdefghijklmnopqrstuvwxyzABCDEFGHIJKLMNOPQRSTUVWXYZ0123456789".data

/-- The sixteen lowercase hex digits, as produced by `hashlib.md5(...).hexdigest()`. -/
def hexChars : List Char := "0123456789abcdef".data

/-- `hexdigest()` of an MD5 digest abstracted by its 128-bit value: the 32
lowercase hex characters, most significant first. -/
def hexdigest (digest : Nat) : List Char :=
  (List.range 32).map (fun i => hexChars.getD (digest / 16 ^ (31 - i) % 16) '0')

/-- One candidate code: `''.join(random.choice(characters) for _ in range(length))`,
drawing from the stream `draw` (attempt number `a`, position `i` consumes
draw number `a * length + i`). -/
def attemptCode (draw : Nat → Nat) (a : Nat) (length : Nat) : String :=
  ⟨(List.range length).map (fun i => characters.getD (draw (a * length + i) % characters.length) 'a')⟩

/-- `URLShortener.objects.filter(short_code=code).exists()` — checked against
all rows, active or not. -/
def code_exists (db : DB) (code : String) : Bool :=
  db.links.any (fun l => l.short_code == code)

/-- The bounded random loop of `generate_short_code` (`for _ in range(100)`),
starting at attempt `a` with `fuel` attempts left. -/
def genAttempts (db : DB) (draw : Nat → Nat) (length : Nat) : Nat → Nat → Option String
  | _, 0 => none
  | a, fuel + 1 =>
    let code := attemptCode draw a length
    if code_exists db code then genAttempts db draw length (a + 1) fuel else some code

/-- `URLShortener.generate_short_code(length=6)`: up to 100 random attempts,
each checked for non-existence in the registry, then the MD5-based fallback
`hash_object.hexdigest()[:length]`. -/
def generate_short_code (db : DB) (draw : Nat → Nat) (digest : Nat) (length : Nat) : String :=
  match genAttempts db draw length 0 100 with
  | some code => code
  | none => ⟨(hexdigest digest).take length⟩

/-! ## Resolver (`RedirectView.get`, url_shortener/views.py lines 100-116) -/

/-- `URLShortener.objects.filter(Q(short_code=key) | Q(custom_alias=key), is_active=True).first()`.
With `DB.links` newest-first, `.first()` under the default `-created_at`
ordering is the head of the filtered list. -/
def findByLookupKey (db : DB) (key : String) : Option ShortLink :=
  (db.links.filter (fun l => (l.short_code == key || l.custom_alias == some key) && l.is_active)).head?

/-- `URLShortener.is_expired` (models.py lines 99-103): `timezone.now() > self.expires_at`
when `expires_at` is set, else `False`. -/
def is_expired (now : Nat) (l : ShortLink) : Bool :=
  match l.expires_at with
  | some t => now > t
  | none => false

/-- Outcome of resolution, before any click recording. -/
inductive ResolveResult where
  | Resolved (original_url : String) (id : Nat)
  | NotFound
  | Expired
  deriving Repr, DecidableEq

/-- The resolution steps of `RedirectView.get`: the single registry query,
the `Http404` branch, and the expiration check.  These steps perform reads
only, so the embedding returns the database unchanged. -/
def resolveOp (db : DB) (now : Nat) (key : String) : ResolveResult × DB :=
  match findByLookupKey db key with
  | none => (ResolveResult.NotFound, db)
  | some l =>
      if is_expired now l then (ResolveResult.Expired, db)
      else (ResolveResult.Resolved l.original_url l.id, db)

/-! ## Click Recorder (`RedirectView.track_click` and
`URLShortener.increment_click_count`) -/

/-- Python slice `s[:n]`. -/
def truncate (n : Nat) (s : String) : String := ⟨s.data.take n⟩

/-- Result of the external `user_agents.parse` collaborator, as consumed by
`parse_user_agent` (utils.py lines 151-197). -/
structure UAInfo where
  device_type : String
  browser : String
  os : String
  deriving Repr, DecidableEq

/-- `parse_user_agent`: empty string or a parser exception yields the
`unknown` triple; otherwise the collaborator's output with `browser` and `os`
truncated to 100 characters. -/
def parse_user_agent (uaParseFails : Bool) (ua : String) (parsed : UAInfo) : UAInfo :=
  if ua == "" then ⟨"unknown", "unknown", "unknown"⟩
  else if uaParseFails then ⟨"unknown", "unknown", "unknown"⟩
  else ⟨parsed.device_type, truncate 100 parsed.browser, truncate 100 parsed.os⟩

/-- Python `str.strip()` on ASCII whitespace. -/
def pyStrip (s : String) : String :=
  ⟨(s.data.dropWhile Char.isWhitespace).reverse.dropWhile Char.isWhitespace |>.reverse⟩

/-- The request metadata consumed by the click-recording path. -/
structure Request where
  x_forwarded_for : String
  remote_addr : String
  http_user_agent : String
  http_referer : String
  ua_parsed : UAInfo
  geo_country : String
  geo_city : String
  deriving Repr, DecidableEq

/-- `get_client_ip` (utils.py lines 200-209): first entry of the
`X-Forwarded-For` list when the header is non-empty, else `REMOTE_ADDR`. -/
def get_client_ip (req : Request) : String :=
  if req.x_forwarded_for == "" then req.remote_addr
  else pyStrip ⟨req.x_forwarded_for.data.takeWhile (fun c => !(c == ','))⟩

/-- The `URLClick` row built by `track_click` (views.py lines 139-166):
`user_agent[:1000]`, `referer[:2000] if referer else None`, user-agent fields
from `parse_user_agent`, geolocation from the middleware. -/
def mkClickEvent (now : Nat) (uaParseFails : Bool) (req : Request) (linkId : Nat) : ClickEvent :=
  let ua := parse_user_agent uaParseFails req.http_user_agent req.ua_parsed
  { url_id := linkId
    ip_address := get_client_ip req
    user_agent := truncate 1000 req.http_user_agent
    referer := if req.http_referer == "" then none else some (truncate 2000 req.http_referer)
    country := req.geo_country
    city := req.geo_city
    device_type := ua.device_type
    browser := ua.browser
    os := ua.os
    created_at := now }

/-- `URLClick.objects.create(...)`: appends one row. -/
def insertClick (db : DB) (e : ClickEvent) : DB :=
  { db with clicks := e :: db.clicks }

/-- `URLShortener.increment_click_count` applied to one row
(models.py lines 93-97): `click_count = F('click_count') + 1` followed by
`save(update_fields=['click_count'])` and `refresh_from_db()`.  The `F`
expression is an atomic `click_count = click_count + 1` at the storage layer,
and `update_fields=['click_count']` writes only that column — the
`auto_now` column `updated_at` is neither recomputed nor written, so every
field other than `click_count` is unchanged. -/
def increment_click_count_link (l : ShortLink) : ShortLink :=
  { l with click_count := l.click_count + 1 }

/-- `increment_click_count` at the database level: the atomic single-row
`UPDATE` targeting the row with the given id. -/
def increment_click_count (db : DB) (linkId : Nat) : DB :=
  { db with links := db.links.map (fun l => if l.id == linkId then increment_click_count_link l else l) }

/-- `RedirectView.track_click`: the whole body sits in one `try/except`, so a
storage failure on the `URLClick` insert leaves the database unchanged (the
exception is logged and swallowed); a user-agent parser failure is already
absorbed inside `parse_user_agent` and the row is still inserted. -/
def track_click (db : DB) (now : Nat) (clickInsertFails uaParseFails : Bool)
    (req : Request) (l : ShortLink) : DB :=
  if clickInsertFails then db
  else insertClick db (mkClickEvent now uaParseFails req l.id)

/-- The responses `RedirectView.get` can produce. -/
inductive Response where
  | redirectTo (url : String)
  | errorPage (title : String)
  deriving Repr, DecidableEq

/-- `RedirectView.get` (views.py lines 100-137).  `incrementFails` models a
storage exception raised by the `UPDATE` of `increment_click_count`: it is
not caught by `track_click`'s handler, so it propagates to the outer
`except Exception` branch, which renders the generic error page — after the
click row was already committed. -/
def redirectGet (db : DB) (now : Nat) (clickInsertFails uaParseFails incrementFails : Bool)
    (req : Request) (short_code : String) : Response × DB :=
  match findByLookupKey db short_code with
  | none => (Response.errorPage "Link Not Found", db)
  | some l =>
      if is_expired now l then (Response.errorPage "Link Expired", db)
      else
        let db1 := track_click db now clickInsertFails uaParseFails req l
        if incrementFails then (Response.errorPage "Error", db1)
        else (Response.redirectTo l.original_url, increment_click_count db1 l.id)

/-! ## Atomic-operation traces for the consistency invariant (C4)

Each physical click-recording step is one of two storage-level atomic
operations: the `INSERT` of a `URLClick` row and the atomic counter
`UPDATE`.  A set of concurrent `recordClick` callers yields some interleaved
trace of these operations; any such trace is a serialization because each
operation is atomic at the storage layer. -/

/-- One atomic storage operation of the click-recording path. -/
inductive ClickOp where
  | ins (e : ClickEvent)
  | inc (linkId : Nat)
  deriving Repr

/-- Apply one atomic operation. -/
def applyOp (db : DB) : ClickOp → DB
  | ClickOp.ins e => insertClick db e
  | ClickOp.inc i => increment_click_count db i

/-- Apply a serialized trace of atomic operations. -/
def applyOps (db : DB) (ops : List ClickOp) : DB := ops.foldl applyOp db

/-- Number of `URLClick` rows referencing the given link. -/
def clickEventsFor (db : DB) (linkId : Nat) : Nat :=
  (db.clicks.filter (fun e => e.url_id == linkId)).length

/-- The stored `click_count` of the row with the given id, if present. -/
def clickCountOf (db : DB) (linkId : Nat) : Option Nat :=
  (db.links.find? (fun l => l.id == linkId)).map (fun l => l.click_count)

/-- Number of insert operations in a trace that reference the given link. -/
def insertsFor (ops : List ClickOp) (linkId : Nat) : Nat :=
  (ops.filter (fun o => match o with
    | ClickOp.ins e => e.url_id == linkId
    | ClickOp.inc _ => false)).length

/-- Number of counter increments in a trace that target the given link. -/
def incsFor (ops : List ClickOp) (linkId : Nat) : Nat :=
  (ops.filter (fun o => match o with
    | ClickOp.ins _ => false
    | ClickOp.inc i => i == linkId)).length

/-! ## URL parsing (`urllib.parse`, as used by `validate_url` and `is_safe_url`)

`validate_url` only ever parses strings that begin with `http://` or
`https://` (it prepends `https://` otherwise), but the embedding renders
CPython's `urlsplit`/`urlparse`/`urlunparse` generally: tab/CR/LF removal,
the scheme split at the first `:`, the `//`-netloc split stopping at the
first of `/?#`, the IPv6-bracket consistency check (a `ValueError`, surfaced
as the error case), fragment then query splits, and the params split of
`urlparse` for schemes in `uses_params`. -/

/-- `s.split(sep, 1)`: the part before the first occurrence of `sep` and the
part after it, or `none` when `sep` does not occur. -/
def splitOnce (sep : Char) : List Char → Option (List Char × List Char)
  | [] => none
  | c :: cs =>
      if c == sep then some ([], cs)
      else match splitOnce sep cs with
        | none => none
        | some (a, b) => some (c :: a, b)

/-- `urllib.parse.scheme_chars`. -/
def scheme_chars : List Char :=
  "abcdefghijklmnopqrstuvwxyzABCDEFGHIJKLMNOPQRSTUVWXYZ0123456789+-.".data

/-- The scheme split of `urlsplit`: at the first `:`, provided the part
before it is a non-empty ASCII-letter-initial run of scheme characters; the
scheme is lowercased. -/
def splitScheme (url : List Char) : List Char × List Char :=
  match splitOnce ':' url with
  | none => ([], url)
  | some (before, after) =>
      if (match before with
          | [] => false
          | c :: _ => c.isAlpha) && before.all (fun c => scheme_chars.contains c)
      then (before.map Char.toLower, after)
      else ([], url)

/-- A character that ends the netloc in `_splitnetloc`. -/
def netlocEnd (c : Char) : Bool := c == '/' || c == '?' || c == '#'

/-- The IPv6-bracket consistency check of `urlsplit`; on mismatch it raises
`ValueError("Invalid IPv6 URL")`. -/
def bracketMismatch (netloc : List Char) : Bool :=
  (netloc.contains '[' && !netloc.contains ']') ||
  (netloc.contains ']' && !netloc.contains '[')

/-- `_UNSAFE_URL_BYTES_TO_REMOVE`: tab, CR and LF are removed from the URL
before parsing. -/
def unsafeUrlChar (c : Char) : Bool := c == '\t' || c == '\r' || c == '\n'

/-- The fragment split of `urlsplit`: `url.split('#', 1)` when `#` occurs. -/
def fragSplit (s : List Char) : List Char × List Char :=
  match splitOnce '#' s with
  | none => (s, [])
  | some (a, b) => (a, b)

/-- The query split of `urlsplit`: `url.split('?', 1)` when `?` occurs. -/
def querySplit (s : List Char) : List Char × List Char :=
  match splitOnce '?' s with
  | none => (s, [])
  | some (a, b) => (a, b)

/-- `urllib.parse.urlsplit`: `(scheme, netloc, path, query, fragment)`, or
the `ValueError` case for mismatched netloc brackets. -/
def urlsplitL (url0 : List Char) :
    Except Unit (List Char × List Char × List Char × List Char × List Char) :=
  let url1 := url0.filter (fun c => !unsafeUrlChar c)
  let sp := splitScheme url1
  let scheme := sp.1
  let rest := sp.2
  let netloc := if rest.take 2 = ['/', '/'] then (rest.drop 2).takeWhile (fun c => !netlocEnd c) else []
  let rest2 := if rest.take 2 = ['/', '/'] then (rest.drop 2).dropWhile (fun c => !netlocEnd c) else rest
  if bracketMismatch netloc then Except.error ()
  else
    let fq := fragSplit rest2
    let qu := querySplit fq.1
    Except.ok (scheme, netloc, qu.1, qu.2, fq.2)

/-- `urllib.parse.uses_params`. -/
def uses_params : List (List Char) :=
  [[], "ftp".data, "hdl".data, "prospero".data, "http".data, "imap".data,
   "https".data, "shttp".data, "rtsp".data, "rtspu".data, "sip".data,
   "sips".data, "mms".data, "sftp".data, "tel".data]

/-- Index of the first occurrence of `sep` at or after position `start`
(`url.find(sep, start)`). -/
def findIdxFrom (sep : Char) (s : List Char) (start : Nat) : Option Nat :=
  match (s.drop start).findIdx? (fun c => c == sep) with
  | none => none
  | some i => some (start + i)

/-- Index of the last occurrence of `sep` (`url.rfind(sep)`). -/
def rfindChar (sep : Char) (s : List Char) : Option Nat :=
  match s.reverse.findIdx? (fun c => c == sep) with
  | none => none
  | some i => some (s.length - 1 - i)

/-- `urllib.parse._splitparams`, called only when `;` occurs in the path:
when the path contains `/`, only a `;` at or after the last `/` starts the
params. -/
def splitparams (path : List Char) : List Char × List Char :=
  match rfindChar '/' path with
  | some j =>
      match findIdxFrom ';' path j with
      | none => (path, [])
      | some i => (path.take i, path.drop (i + 1))
  | none =>
      match path.findIdx? (fun c => c == ';') with
      | none => (path, [])
      | some i => (path.take i, path.drop (i + 1))

/-- The six components returned by `urllib.parse.urlparse`. -/
structure ParseResult where
  scheme : List Char
  netloc : List Char
  path : List Char
  params : List Char
  query : List Char
  fragment : List Char
  deriving Repr, DecidableEq

/-- The params split of `urlparse`: applied only for schemes in
`uses_params` and when `;` occurs in the path. -/
def paramsSplit (scheme path0 : List Char) : List Char × List Char :=
  if uses_params.contains scheme && path0.contains ';' then splitparams path0
  else (path0, [])

/-- `urllib.parse.urlparse`. -/
def urlparseL (url0 : List Char) : Except Unit ParseResult :=
  match urlsplitL url0 with
  | Except.error e => Except.error e
  | Except.ok (scheme, netloc, path0, query, fragment) =>
      let pp := paramsSplit scheme path0
      Except.ok ⟨scheme, netloc, pp.1, pp.2, query, fragment⟩

/-- `urllib.parse.urlunsplit`. -/
def urlunsplitL (scheme netloc path query fragment : List Char) : List Char :=
  let url := path
  let url :=
    if !netloc.isEmpty || (!url.isEmpty && url.take 2 = ['/', '/']) then
      let url := if !url.isEmpty && url.take 1 ≠ ['/'] then '/' :: url else url
      '/' :: '/' :: (netloc ++ url)
    else url
  let url := if !scheme.isEmpty then scheme ++ ':' :: url else url
  let url := if !query.isEmpty then url ++ '?' :: query else url
  if !fragment.isEmpty then url ++ '#' :: fragment else url

/-- `urllib.parse.urlunparse`. -/
def urlunparseL (p : ParseResult) : List Char :=
  urlunsplitL p.scheme p.netloc
    (if !p.params.isEmpty then p.path ++ ';' :: p.params else p.path) p.query p.fragment

/-! ## URL Normalizer (`validate_url`, shortener/utils.py lines 12-42) -/

/-- `url.startswith(('http://', 'https://'))`. -/
def startsWithHttpScheme (u : List Char) : Bool :=
  u.take 7 = "http://".data || u.take 8 = "https://".data

/-- `validate_url`: reject the empty string, prepend `https://` when the
scheme prefix is missing, parse, reject when no netloc was parsed (or the
parser raised), and rebuild the URL with the netloc lowercased.  The error
case stands for the `ValidationError` the function raises. -/
def validate_url (url : String) : Except Unit String :=
  if url == "" then Except.error ()
  else
    let u := if startsWithHttpScheme url.data then url.data else "https://".data ++ url.data
    match urlparseL u with
    | Except.error e => Except.error e
    | Except.ok parsed =>
        if parsed.netloc.isEmpty then Except.error ()
        else Except.ok ⟨urlunparseL { parsed with netloc := parsed.netloc.map Char.toLower }⟩

/-! ## Safety Checker (`is_safe_url`, shortener/utils.py lines 45-78) -/

/-- `sub in s`: substring containment. -/
def containsSub (s sub : List Char) : Bool := s.tails.any (fun t => sub.isPrefixOf t)

/-- The blocklist of `is_safe_url`. -/
def dangerous_domains : List (List Char) :=
  ["bit.ly".data, "tinyurl.com".data, "short.link".data, "malware-example.com".data]

/-- ASCII digit. -/
def isDigitCh (c : Char) : Bool := '0' ≤ c && c ≤ '9'

/-- A character of the class `[a-z0-9]`. -/
def isLowerAlnum (c : Char) : Bool := ('a' ≤ c && c ≤ 'z') || isDigitCh c

/-- Consume exactly `k` digits. -/
def afterDigits (s : List Char) (k : Nat) : Option (List Char) :=
  if (s.take k).length = k && (s.take k).all isDigitCh then some (s.drop k) else none

/-- Consume a literal dot. -/
def afterDot : List Char → Option (List Char)
  | [] => none
  | c :: rest => if c == '.' then some rest else none

/-- Remainders after consuming `[0-9]{1,3}` (all quantifier choices). -/
def remsAfterGroup (s : List Char) : List (List Char) :=
  [1, 2, 3].filterMap (fun k => afterDigits s k)

/-- Remainders after consuming `[0-9]{1,3}\.`. -/
def remsAfterGroupDot (s : List Char) : List (List Char) :=
  (remsAfterGroup s).filterMap afterDot

/-- Whether `[0-9]{1,3}\.[0-9]{1,3}\.[0-9]{1,3}\.[0-9]{1,3}` matches starting
at the head of `s` (some backtracking choice succeeds). -/
def matchIpAt (s : List Char) : Bool :=
  (((remsAfterGroupDot s).flatMap remsAfterGroupDot).flatMap remsAfterGroupDot).any
    (fun s3 => !(remsAfterGroup s3).isEmpty)

/-- `re.search` of the IP-address pattern: a match starting anywhere. -/
def ipSearch (s : List Char) : Bool := s.tails.any matchIpAt

/-- `re.search(r'[a-z0-9]{20,}', s)`: some run of at least 20 such characters. -/
def longRunSearch (s : List Char) : Bool :=
  s.tails.any (fun t => 20 ≤ t.length && (t.take 20).all isLowerAlnum)

/-- `is_safe_url`: parse, lowercase the netloc, refuse blocklisted domains
(substring test), raw-IP domains and long `[a-z0-9]` runs; any parser
exception also yields `False`. -/
def is_safe_url (url : String) : Bool :=
  match urlparseL url.data with
  | Except.error _ => false
  | Except.ok parsed =>
      let domain := parsed.netloc.map Char.toLower
      if dangerous_domains.any (fun d => containsSub domain d) then false
      else if ipSearch domain then false
      else if longRunSearch domain then false
      else true

/-! ## Alias Validator (`is_valid_custom_alias`, shortener/utils.py lines 212-237) -/

/-- A character of the class `[a-zA-Z0-9_-]`. -/
def isAliasChar (c : Char) : Bool :=
  ('a' ≤ c && c ≤ 'z') || ('A' ≤ c && c ≤ 'Z') || ('0' ≤ c && c ≤ '9') ||
  c == '_' || c == '-'

/-- Python `str.lower()` (ASCII range; every string this model compares
against the reserved list is ASCII, since it already matched the pattern). -/
def pyLower (s : String) : String := ⟨s.data.map Char.toLower⟩

/-- Python `re.match(r'^[a-zA-Z0-9_-]+$', s)` as a Boolean: without
`re.MULTILINE`, `$` matches at the end of the string or just before a single
trailing newline, so a trailing `'\n'` is tolerated. -/
def reMatchAliasPattern (s : List Char) : Bool :=
  let t := if s.getLast? == some '\n' then s.dropLast else s
  !t.isEmpty && t.all isAliasChar

/-- The reserved words of `is_valid_custom_alias`. -/
def reserved_words : List String :=
  ["admin", "api", "www", "mail", "ftp", "localhost",
   "dashboard", "analytics", "stats", "help", "support",
   "about", "contact", "privacy", "terms", "login", "register"]

/-- `is_valid_custom_alias`: empty is valid (auto-generate); then the length
window, the pattern match, and the reserved-word check, in source order. -/
def is_valid_custom_alias (a : String) : Bool :=
  if a == "" then true
  else if a.length < 3 || 50 < a.length then false
  else if !reMatchAliasPattern a.data then false
  else if reserved_words.contains (pyLower a) then false
  else true

/-- Modelled from the spec: the Alias Validator rules exactly as the
specification words them — length in `[3,50]`, a full match of
`^[A-Za-z0-9_-]+$` (every character in the class), lowercase form not
reserved; the empty alias is valid.  Used only to compare the specified
rules with `is_valid_custom_alias` as implemented. -/
def specValidAlias (a : String) : Bool :=
  a == "" ||
  (3 ≤ a.length && a.length ≤ 50 &&
   !a.data.isEmpty && a.data.all isAliasChar &&
   !reserved_words.contains (pyLower a))

/-! ## Create operation (`URLShortenerView.form_valid`, url_shortener/views.py lines 27-87) -/

/-- The user-visible outcomes of `form_valid`'s creation logic: the short URL
of a link (created or pre-existing), and the three error messages appended to
`success_url` (`Unsafe URL detected`, `Give Valid Url`,
`Error creating short URL`). -/
inductive CreateResult where
  | shortUrl (link : ShortLink)
  | unsafeUrl
  | invalidUrl
  | genericError
  deriving Repr, DecidableEq

/-- The duplicate-URL lookup performed when no custom alias was supplied:
`URLShortener.objects.filter(original_url=normalized, is_active=True,
custom_alias__isnull=True).first()`. -/
def dedupLookup (db : DB) (normalized : String) : Option ShortLink :=
  (db.links.filter (fun l =>
    l.original_url == normalized && l.is_active && l.custom_alias == none)).head?

/-- The storage-layer uniqueness constraint checked by the INSERT:
`short_code` and `custom_alias` are both UNIQUE columns (models.py lines
15-16); a NULL alias does not conflict. -/
def violatesUnique (links : List ShortLink) (l : ShortLink) : Bool :=
  links.any (fun x => x.short_code == l.short_code ||
    (l.custom_alias.isSome && x.custom_alias == l.custom_alias))

/-- The row built by `URLShortener.objects.create(...)` through
`URLShortener.save`: no `short_code` was passed, so `save` fills it from
`generate_short_code` (whose registry pre-check reads `db`). -/
def newRow (db : DB) (now newId : Nat) (draw : Nat → Nat) (digest : Nat)
    (normalized : String) (ca : Option String) : ShortLink :=
  { id := newId
    original_url := normalized
    short_code := generate_short_code db draw digest 6
    custom_alias := ca
    click_count := 0
    created_at := now
    updated_at := now
    expires_at := none
    is_active := true }

/-- The creation logic of `URLShortenerView.form_valid`: URL validation
(`ValidationError` → `Give Valid Url`), the safety check, the duplicate-URL
shortcut when no alias was given, then one `objects.create` inside
`transaction.atomic()`.  Returns the outcome, the database after the
operation, and the number of INSERT statements executed.

`racedCodes` models the race of spec §4.1: codes committed by concurrent
writers between the generator's registry pre-check and the INSERT.  A
collision with them (or with any row of `db`) makes the INSERT raise
`IntegrityError`; `form_valid` has no handler for it other than the final
`except Exception`, so the transaction rolls back and the generic error is
returned — there is no retry loop and no `CodeExhausted` outcome in the
source. -/
def form_valid (db : DB) (now newId : Nat) (draw : Nat → Nat) (digest : Nat)
    (racedCodes : List String) (link : String) (ca : Option String) :
    CreateResult × DB × Nat :=
  match validate_url link with
  | Except.error _ => (CreateResult.invalidUrl, db, 0)
  | Except.ok normalized =>
      if !is_safe_url normalized then (CreateResult.unsafeUrl, db, 0)
      else
        match (match ca with
               | none => dedupLookup db normalized
               | some _ => none) with
        | some existing => (CreateResult.shortUrl existing, db, 0)
        | none =>
            let nl := newRow db now newId draw digest normalized ca
            if violatesUnique db.links nl || racedCodes.contains nl.short_code then
              (CreateResult.genericError, db, 1)
            else
              (CreateResult.shortUrl nl, { db with links := nl :: db.links }, 1)

/-! ## Helper forms for the normalization theorems (C7) -/

/-- The string `validate_url` hands to `urlparse`: the input itself when it
already carries an `http://`/`https://` prefix, else `https://` prepended. -/
def prepend_https (u : String) : List Char :=
  if startsWithHttpScheme u.data then u.data else "https://".data ++ u.data

/-- For a scheme-less input, the netloc `urlparse` will extract: the prefix
up to the first `/`, `?` or `#`. -/
def hostOf (u : String) : List Char := u.data.takeWhile (fun c => !netlocEnd c)

/-- The remainder of a scheme-less input after `hostOf`. -/
def tailOf (u : String) : List Char := u.data.dropWhile (fun c => !netlocEnd c)

/-- What the parse/unparse round trip of `validate_url` makes of everything
after the netloc: fragment split, query split, params split, the `/`-prefix
fix of `urlunsplit`, and reassembly (empty components drop their
delimiter). -/
def normTail (tail : List Char) : List Char :=
  let fq := fragSplit tail
  let qu := querySplit fq.1
  let pp := paramsSplit "https".data qu.1
  let url := if !pp.2.isEmpty then pp.1 ++ ';' :: pp.2 else pp.1
  let url := if !url.isEmpty && url.take 1 ≠ ['/'] then '/' :: url else url
  let url := if !qu.2.isEmpty then url ++ '?' :: qu.2 else url
  if !fq.2.isEmpty then url ++ '#' :: fq.2 else url

/-- Modelled from the spec, as amended by the trailing-newline
counterexample: the Alias Validator rules with the pattern rule read under
Python `re.match` semantics (`$` may also match just before one trailing
newline). -/
def specValidAliasAmended (a : String) : Bool :=
  a == "" ||
  (3 ≤ a.length && a.length ≤ 50 && reMatchAliasPattern a.data &&
   !reserved_words.contains (pyLower a))

/-- The two atomic storage operations one successful `recordClick`
(`track_click` followed by `increment_click_count`) performs, in source
order. -/
def recordClickOps (now : Nat) (uaParseFails : Bool) (req : Request) (linkId : Nat) :
    List ClickOp :=
  [ClickOp.ins (mkClickEvent now uaParseFails req linkId), ClickOp.inc linkId]

/-! ## Theorems -/

/-! ### C1: format of generated short codes -/

theorem getD_mem_of_mem {l : List Char} (n : Nat) {d : Char} (hd : d ∈ l) : l.getD n d ∈ l := by
  rw [List.getD_eq_getElem?_getD]
  cases h : l[n]? with
  | none => simpa using hd
  | some a =>
      simp only [Option.getD_some]
      obtain ⟨hlt, rfl⟩ := List.getElem?_eq_some.mp h
      exact List.getElem_mem hlt

theorem mem_characters_isAlphanum : ∀ c ∈ characters, c.isAlphanum := by decide

theorem attemptCode_length (draw : Nat → Nat) (a len : Nat) :
    (attemptCode draw a len).length = len := by
  simp [attemptCode, String.length]

theorem attemptCode_mem (draw : Nat → Nat) (a len : Nat) :
    ∀ c ∈ (attemptCode draw a len).data, c ∈ characters := by
  intro c hc
  simp only [attemptCode] at hc
  obtain ⟨i, _, rfl⟩ := List.mem_map.mp hc
  exact getD_mem_of_mem _ (by decide)

theorem genAttempts_shape (db : DB) (draw : Nat → Nat) (len : Nat) :
    ∀ fuel a code, genAttempts db draw len a fuel = some code →
      ∃ b, code = attemptCode draw b len := by
  intro fuel
  induction fuel with
  | zero => intro a code h; simp [genAttempts] at h
  | succ n ih =>
      intro a code h
      simp only [genAttempts] at h
      split at h
      · exact ih _ _ h
      · exact ⟨a, (Option.some_inj.mp h).symm⟩

theorem hexdigest_length (digest : Nat) : (hexdigest digest).length = 32 := by
  simp [hexdigest]

theorem hexdigest_mem (digest : Nat) : ∀ c ∈ hexdigest digest, c ∈ hexChars := by
  intro c hc
  simp only [hexdigest] at hc
  obtain ⟨i, _, rfl⟩ := List.mem_map.mp hc
  exact getD_mem_of_mem _ (by decide)

theorem hexChars_isAlphanum : ∀ c ∈ hexChars, c.isAlphanum := by decide

/-- C1: every short code returned by `generate_short_code` — whether from the
random path (up to 100 attempts drawn from the 62-symbol alphabet, each
checked for non-existence in the registry) or from the deterministic MD5
fallback `hexdigest()[:6]` — has length exactly 6 and consists only of
characters in `[A-Za-z0-9]`. -/
theorem generate_short_code_format (db : DB) (draw : Nat → Nat) (digest : Nat) :
    (generate_short_code db draw digest 6).length = 6 ∧
    ∀ c ∈ (generate_short_code db draw digest 6).data, c.isAlphanum := by
  unfold generate_short_code
  cases h : genAttempts db draw 6 0 100 with
  | some code =>
      obtain ⟨b, rfl⟩ := genAttempts_shape db draw 6 100 0 code h
      exact ⟨attemptCode_length draw b 6,
             fun c hc => mem_characters_isAlphanum c (attemptCode_mem draw b 6 c hc)⟩
  | none =>
      constructor
      · show (String.mk ((hexdigest digest).take 6)).length = 6
        rw [String.length, List.length_take, hexdigest_length]
        decide
      · intro c hc
        have hm : c ∈ hexdigest digest := List.take_subset 6 (hexdigest digest) hc
        exact hexChars_isAlphanum c (hexdigest_mem digest c hm)

/-! ### C2/C3: the Resolver -/

theorem resolveOp_snd (db : DB) (now : Nat) (key : String) : (resolveOp db now key).2 = db := by
  unfold resolveOp
  cases findByLookupKey db key with
  | none => rfl
  | some l => dsimp only; split <;> rfl

/-- C2: for an active, non-expired lookup key, `resolve` is idempotent: the
resolution path of `RedirectView.get` performs reads only, so a second call
on the resulting state returns the same `originalURL` and neither call
changes any link's `clickCount`. -/
theorem resolve_idempotent (db : DB) (now : Nat) (key url : String) (i : Nat)
    (h : (resolveOp db now key).1 = ResolveResult.Resolved url i) :
    (resolveOp db now key).2 = db ∧
    (resolveOp (resolveOp db now key).2 now key).1 = ResolveResult.Resolved url i ∧
    (resolveOp (resolveOp db now key).2 now key).2 = db ∧
    clickCountOf (resolveOp (resolveOp db now key).2 now key).2 i = clickCountOf db i := by
  have h2 := resolveOp_snd db now key
  refine ⟨h2, ?_, ?_, ?_⟩ <;> rw [h2]
  · exact h
  · exact resolveOp_snd db now key
  · rw [resolveOp_snd db now key]

theorem resolve_idempotent_witness :
    ((resolveOp ⟨[⟨1, "https://example.com/test", "abc123", none, 0, 0, 0, none, true⟩], []⟩
        10 "abc123").1 = ResolveResult.Resolved "https://example.com/test" 1) ∧
    ((resolveOp ⟨[⟨1, "https://example.com/test", "abc123", none, 0, 0, 0, none, true⟩], []⟩
        10 "abc123").2 = ⟨[⟨1, "https://example.com/test", "abc123", none, 0, 0, 0, none, true⟩], []⟩ ∧
     (resolveOp (resolveOp ⟨[⟨1, "https://example.com/test", "abc123", none, 0, 0, 0, none, true⟩], []⟩
        10 "abc123").2 10 "abc123").1 = ResolveResult.Resolved "https://example.com/test" 1 ∧
     (resolveOp (resolveOp ⟨[⟨1, "https://example.com/test", "abc123", none, 0, 0, 0, none, true⟩], []⟩
        10 "abc123").2 10 "abc123").2 = ⟨[⟨1, "https://example.com/test", "abc123", none, 0, 0, 0, none, true⟩], []⟩ ∧
     clickCountOf (resolveOp (resolveOp ⟨[⟨1, "https://example.com/test", "abc123", none, 0, 0, 0, none, true⟩], []⟩
        10 "abc123").2 10 "abc123").2 1 =
       clickCountOf ⟨[⟨1, "https://example.com/test", "abc123", none, 0, 0, 0, none, true⟩], []⟩ 1) :=
  ⟨by decide, resolve_idempotent _ 10 "abc123" "https://example.com/test" 1 (by decide)⟩

/-- C3: when the lookup key matches an active link whose `expiresAt` is set
and strictly in the past, resolution yields `Expired`, an outcome distinct
from `NotFound`. -/
theorem resolve_expired_distinct (db : DB) (now : Nat) (key : String) (l : ShortLink) (t : Nat)
    (hf : findByLookupKey db key = some l) (ht : l.expires_at = some t) (hlt : t < now) :
    (resolveOp db now key).1 = ResolveResult.Expired ∧
    ResolveResult.Expired ≠ ResolveResult.NotFound := by
  refine ⟨?_, by decide⟩
  have hexp : is_expired now l = true := by
    simp only [is_expired, ht]
    simpa using hlt
  simp [resolveOp, hf, hexp]

theorem resolve_expired_distinct_witness :
    (findByLookupKey ⟨[⟨1, "https://example.com/test", "abc123", none, 0, 0, 0, some 5, true⟩], []⟩
        "abc123" = some ⟨1, "https://example.com/test", "abc123", none, 0, 0, 0, some 5, true⟩ ∧
     (5 : Nat) < 10) ∧
    ((resolveOp ⟨[⟨1, "https://example.com/test", "abc123", none, 0, 0, 0, some 5, true⟩], []⟩
        10 "abc123").1 = ResolveResult.Expired ∧
     ResolveResult.Expired ≠ ResolveResult.NotFound) :=
  ⟨⟨by decide, by decide⟩,
   resolve_expired_distinct ⟨[⟨1, "https://example.com/test", "abc123", none, 0, 0, 0, some 5, true⟩], []⟩
     10 "abc123" ⟨1, "https://example.com/test", "abc123", none, 0, 0, 0, some 5, true⟩ 5
     (by decide) (by decide) (by decide)⟩

/-! ### C9: frame of the click-count increment -/

/-- C9 counterexample: `increment_click_count` runs
`save(update_fields=['click_count'])`, which writes only the `click_count`
column; on a concrete row with `updated_at = 5` the increment leaves
`updated_at` at 5, so `updatedAt` does not advance on this mutation. -/
theorem updated_at_not_advanced_cex :
    (increment_click_count_link ⟨1, "https://example.com/test", "abc123", none, 7, 5, 5, none, true⟩).click_count = 8 ∧
    (increment_click_count_link ⟨1, "https://example.com/test", "abc123", none, 7, 5, 5, none, true⟩).updated_at = 5 ∧
    ¬ 5 < (increment_click_count_link ⟨1, "https://example.com/test", "abc123", none, 7, 5, 5, none, true⟩).updated_at := by
  refine ⟨rfl, rfl, ?_⟩
  decide

/-- C9 (amended): the Click Recorder's increment mutates exactly
`clickCount` (by one); every other field — `updatedAt` included, because
`update_fields=['click_count']` excludes the `auto_now` column — is left
unchanged. -/
theorem increment_click_count_frame (l : ShortLink) :
    (increment_click_count_link l).click_count = l.click_count + 1 ∧
    (increment_click_count_link l).updated_at = l.updated_at ∧
    (increment_click_count_link l).id = l.id ∧
    (increment_click_count_link l).original_url = l.original_url ∧
    (increment_click_count_link l).short_code = l.short_code ∧
    (increment_click_count_link l).custom_alias = l.custom_alias ∧
    (increment_click_count_link l).created_at = l.created_at ∧
    (increment_click_count_link l).expires_at = l.expires_at ∧
    (increment_click_count_link l).is_active = l.is_active :=
  ⟨rfl, rfl, rfl, rfl, rfl, rfl, rfl, rfl, rfl⟩

/-! ### C4: click-count / click-event consistency -/

theorem find_map_id_preserving (p : ShortLink → Bool) (f : ShortLink → ShortLink)
    (hf : ∀ x, p (f x) = p x) (links : List ShortLink) :
    (links.map f).find? p = (links.find? p).map f := by
  induction links with
  | nil => rfl
  | cons x xs ih =>
      rw [List.map_cons]
      cases hp : p x
      · rw [List.find?_cons_of_neg _ (by simp [hf x, hp]),
            List.find?_cons_of_neg _ (by simp [hp])]
        exact ih
      · rw [List.find?_cons_of_pos _ (by simp [hf x, hp]),
            List.find?_cons_of_pos _ (by simp [hp])]
        rfl

theorem increment_pred_preserved (i j : Nat) :
    ∀ x : ShortLink,
      ((if x.id == j then increment_click_count_link x else x).id == i) = (x.id == i) := by
  intro x
  split <;> rfl

theorem clickCountOf_increment_self (db : DB) (i c : Nat) (h : clickCountOf db i = some c) :
    clickCountOf (increment_click_count db i) i = some (c + 1) := by
  unfold clickCountOf at h ⊢
  unfold increment_click_count
  dsimp only
  rw [find_map_id_preserving _ _ (increment_pred_preserved i i)]
  cases hf : db.links.find? (fun l => l.id == i) with
  | none => rw [hf] at h; simp at h
  | some l =>
      rw [hf] at h
      have hid : l.id = i := by simpa using List.find?_some hf
      have hcc : l.click_count = c := by simpa using h
      simp [hid, increment_click_count_link, hcc]

theorem clickCountOf_increment_other (db : DB) (j i : Nat) (hne : j ≠ i) :
    clickCountOf (increment_click_count db j) i = clickCountOf db i := by
  unfold clickCountOf increment_click_count
  dsimp only
  rw [find_map_id_preserving _ _ (increment_pred_preserved i j)]
  cases hf : db.links.find? (fun l => l.id == i) with
  | none => rfl
  | some l =>
      have hid : l.id = i := by simpa using List.find?_some hf
      have hj : ¬ l.id = j := by omega
      simp [hj]

theorem clickEventsFor_insert (db : DB) (e : ClickEvent) (i : Nat) :
    clickEventsFor (insertClick db e) i =
      clickEventsFor db i + (if e.url_id == i then 1 else 0) := by
  unfold clickEventsFor insertClick
  dsimp only
  rw [List.filter_cons]
  split <;> simp

/-- One atomic step moves the two counters by its own contribution. -/
theorem applyOps_counts (i : Nat) : ∀ (t : List ClickOp) (db : DB) (c : Nat),
    clickCountOf db i = some c →
    clickCountOf (applyOps db t) i = some (c + incsFor t i) ∧
    clickEventsFor (applyOps db t) i = clickEventsFor db i + insertsFor t i := by
  intro t
  induction t with
  | nil =>
      intro db c hc
      simp [applyOps, incsFor, insertsFor, hc]
  | cons op rest ih =>
      intro db c hc
      have happ : applyOps db (op :: rest) = applyOps (applyOp db op) rest := rfl
      cases op with
      | ins e =>
          obtain ⟨hcnt, hevt⟩ := ih (applyOp db (ClickOp.ins e)) c hc
          rw [happ, hcnt, hevt]
          refine ⟨by rfl, ?_⟩
          show clickEventsFor (insertClick db e) i + insertsFor rest i = _
          rw [clickEventsFor_insert]
          have : insertsFor (ClickOp.ins e :: rest) i =
              (if e.url_id == i then 1 else 0) + insertsFor rest i := by
            unfold insertsFor
            rw [List.filter_cons]
            split <;> simp [Nat.add_comm]
          rw [this]
          omega
      | inc j =>
          by_cases hj : j = i
          · subst hj
            obtain ⟨hcnt, hevt⟩ :=
              ih (applyOp db (ClickOp.inc j)) (c + 1) (clickCountOf_increment_self db j c hc)
            rw [happ, hcnt, hevt]
            have hincs : incsFor (ClickOp.inc j :: rest) j = 1 + incsFor rest j := by
              unfold incsFor
              rw [List.filter_cons]
              simp
              omega
            have hins : insertsFor (ClickOp.inc j :: rest) j = insertsFor rest j := by
              unfold insertsFor
              rw [List.filter_cons]
              simp
            rw [hincs, hins]
            exact ⟨by congr 1; omega, rfl⟩
          · obtain ⟨hcnt, hevt⟩ := ih (applyOp db (ClickOp.inc j)) c
              (by show clickCountOf (increment_click_count db j) i = some c
                  rw [clickCountOf_increment_other db j i hj]; exact hc)
            rw [happ, hcnt, hevt]
            have hincs : incsFor (ClickOp.inc j :: rest) i = incsFor rest i := by
              unfold incsFor
              rw [List.filter_cons]
              have : (j == i) = false := by simp [hj]
              simp [this]
            have hins : insertsFor (ClickOp.inc j :: rest) i = insertsFor rest i := by
              unfold insertsFor
              rw [List.filter_cons]
              simp
            rw [hincs, hins]
            exact ⟨rfl, rfl⟩

/-- C4: starting from a state satisfying the invariant
`clickCount = number of ClickEvents referencing the link`, any serialized
trace of atomic click operations containing `n` ClickEvent inserts and `n`
counter increments for the link — in particular any interleaving of `n`
concurrent `recordClick` calls — leaves `clickCount = c + n` and exactly
`c + n` ClickEvent rows for it: no lost updates.  Moreover each
`recordClick` (`track_click` then `increment_click_count`) contributes
exactly one insert and one increment. -/
theorem click_count_consistency (db : DB) (i c n : Nat) (t : List ClickOp)
    (hc : clickCountOf db i = some c) (hinv : clickEventsFor db i = c)
    (hins : insertsFor t i = n) (hincs : incsFor t i = n) :
    (clickCountOf (applyOps db t) i = some (c + n) ∧
     clickEventsFor (applyOps db t) i = c + n) ∧
    (∀ (now : Nat) (uaF : Bool) (req : Request),
       insertsFor (recordClickOps now uaF req i) i = 1 ∧
       incsFor (recordClickOps now uaF req i) i = 1) := by
  obtain ⟨h1, h2⟩ := applyOps_counts i t db c hc
  refine ⟨⟨by rw [h1, hincs], by rw [h2, hinv, hins]⟩, ?_⟩
  intro now uaF req
  constructor <;> simp [recordClickOps, insertsFor, incsFor, mkClickEvent]

theorem click_count_consistency_witness :
    (clickCountOf ⟨[⟨1, "https://example.com/test", "abc123", none, 0, 0, 0, none, true⟩], []⟩ 1 = some 0 ∧
     clickEventsFor ⟨[⟨1, "https://example.com/test", "abc123", none, 0, 0, 0, none, true⟩], []⟩ 1 = 0 ∧
     insertsFor (recordClickOps 5 false
       ⟨"", "9.9.9.9", "UA", "", ⟨"desktop", "Chrome", "Windows"⟩, "", ""⟩ 1) 1 = 1 ∧
     incsFor (recordClickOps 5 false
       ⟨"", "9.9.9.9", "UA", "", ⟨"desktop", "Chrome", "Windows"⟩, "", ""⟩ 1) 1 = 1) ∧
    ((clickCountOf (applyOps ⟨[⟨1, "https://example.com/test", "abc123", none, 0, 0, 0, none, true⟩], []⟩
        (recordClickOps 5 false
          ⟨"", "9.9.9.9", "UA", "", ⟨"desktop", "Chrome", "Windows"⟩, "", ""⟩ 1)) 1 = some (0 + 1) ∧
      clickEventsFor (applyOps ⟨[⟨1, "https://example.com/test", "abc123", none, 0, 0, 0, none, true⟩], []⟩
        (recordClickOps 5 false
          ⟨"", "9.9.9.9", "UA", "", ⟨"desktop", "Chrome", "Windows"⟩, "", ""⟩ 1)) 1 = 0 + 1) ∧
     (∀ (now : Nat) (uaF : Bool) (req : Request),
        insertsFor (recordClickOps now uaF req 1) 1 = 1 ∧
        incsFor (recordClickOps now uaF req 1) 1 = 1)) :=
  ⟨⟨by decide, by decide, by decide, by decide⟩,
   click_count_consistency ⟨[⟨1, "https://example.com/test", "abc123", none, 0, 0, 0, none, true⟩], []⟩
     1 0 1 (recordClickOps 5 false ⟨"", "9.9.9.9", "UA", "", ⟨"desktop", "Chrome", "Windows"⟩, "", ""⟩ 1)
     (by decide) (by decide) (by decide) (by decide)⟩

/-! ### C8: failure handling on the redirect path -/

/-- C8 counterexample: a storage failure inside `increment_click_count` is
not caught by `track_click`'s handler — it propagates to the outer
`except Exception` of `RedirectView.get`, which renders the generic error
page, so the caller does not receive the redirect. -/
theorem increment_failure_cex :
    (redirectGet ⟨[⟨1, "https://example.com/test", "abc123", none, 0, 0, 0, none, true⟩], []⟩
        10 false false true ⟨"", "9.9.9.9", "UA", "", ⟨"desktop", "Chrome", "Windows"⟩, "", ""⟩
        "abc123").1 = Response.errorPage "Error" ∧
    (redirectGet ⟨[⟨1, "https://example.com/test", "abc123", none, 0, 0, 0, none, true⟩], []⟩
        10 false false true ⟨"", "9.9.9.9", "UA", "", ⟨"desktop", "Chrome", "Windows"⟩, "", ""⟩
        "abc123").1 ≠ Response.redirectTo "https://example.com/test" := by
  constructor
  · decide
  · decide

/-- C8 (amended): for a request that resolves to an active, non-expired
link, a failure of the `URLClick` insert or of user-agent parsing is caught,
logged and swallowed and the caller still receives the redirect to
`originalURL`; only a failure of the counter increment (which sits outside
`track_click`'s handler) loses the redirect. -/
theorem redirect_survives_recording_failures (db : DB) (now : Nat) (req : Request)
    (key url : String) (i : Nat) (insF uaF : Bool)
    (h : (resolveOp db now key).1 = ResolveResult.Resolved url i) :
    (redirectGet db now insF uaF false req key).1 = Response.redirectTo url := by
  unfold resolveOp at h
  unfold redirectGet
  cases hf : findByLookupKey db key with
  | none => rw [hf] at h; simp at h
  | some l =>
      rw [hf] at h
      dsimp only at h ⊢
      cases hexp : is_expired now l with
      | true => rw [hexp] at h; simp at h
      | false =>
          rw [hexp] at h
          simp only [Bool.false_eq_true, if_false] at h
          have hurl : l.original_url = url := by
            injection h with h1 h2
          simp [hexp, hurl]

theorem redirect_survives_recording_failures_witness :
    ((resolveOp ⟨[⟨1, "https://example.com/test", "abc123", none, 0, 0, 0, none, true⟩], []⟩
        10 "abc123").1 = ResolveResult.Resolved "https://example.com/test" 1) ∧
    (redirectGet ⟨[⟨1, "https://example.com/test", "abc123", none, 0, 0, 0, none, true⟩], []⟩
        10 true true false ⟨"", "9.9.9.9", "UA", "", ⟨"desktop", "Chrome", "Windows"⟩, "", ""⟩
        "abc123").1 = Response.redirectTo "https://example.com/test" :=
  ⟨by decide,
   redirect_survives_recording_failures
     ⟨[⟨1, "https://example.com/test", "abc123", none, 0, 0, 0, none, true⟩], []⟩
     10 ⟨"", "9.9.9.9", "UA", "", ⟨"desktop", "Chrome", "Windows"⟩, "", ""⟩
     "abc123" "https://example.com/test" 1 true true (by decide)⟩

/-! ### C10: duplicate-URL creation returns the existing link -/

/-- C10: a creation request without a custom alias whose normalized URL
already has an active, alias-free row returns that row and changes nothing:
the registry is untouched and no INSERT is attempted (so no code is
allocated). -/
theorem duplicate_url_returns_existing (db : DB) (now newId : Nat) (draw : Nat → Nat)
    (digest : Nat) (racedCodes : List String) (link nurl : String) (existing : ShortLink)
    (hval : validate_url link = Except.ok nurl) (hsafe : is_safe_url nurl = true)
    (hd : dedupLookup db nurl = some existing) :
    form_valid db now newId draw digest racedCodes link none =
      (CreateResult.shortUrl existing, db, 0) := by
  unfold form_valid
  rw [hval]
  simp [hsafe, hd]

theorem duplicate_url_returns_existing_witness :
    (validate_url "example.com" = Except.ok "https://example.com" ∧
     is_safe_url "https://example.com" = true ∧
     dedupLookup ⟨[⟨1, "https://example.com", "abc123", none, 0, 0, 0, none, true⟩], []⟩
       "https://example.com" = some ⟨1, "https://example.com", "abc123", none, 0, 0, 0, none, true⟩) ∧
    form_valid ⟨[⟨1, "https://example.com", "abc123", none, 0, 0, 0, none, true⟩], []⟩
        5 2 (fun _ => 0) 0 [] "example.com" none =
      (CreateResult.shortUrl ⟨1, "https://example.com", "abc123", none, 0, 0, 0, none, true⟩,
       ⟨[⟨1, "https://example.com", "abc123", none, 0, 0, 0, none, true⟩], []⟩, 0) :=
  ⟨⟨by rfl, by decide, by decide⟩,
   duplicate_url_returns_existing
     ⟨[⟨1, "https://example.com", "abc123", none, 0, 0, 0, none, true⟩], []⟩
     5 2 (fun _ => 0) 0 [] "example.com" "https://example.com"
     ⟨1, "https://example.com", "abc123", none, 0, 0, 0, none, true⟩
     (by rfl) (by decide) (by decide)⟩

/-! ### C5: no retry after an insert-time uniqueness violation -/

/-- C5 counterexample: with an empty registry the generator's pre-check
passes for the code `aaaaaa`; a concurrent writer commits the same code
before the INSERT; `form_valid` then returns the generic creation error
after exactly one insert attempt — there is no retry loop and no
`CodeExhausted` outcome (the source has no such error at all). -/
theorem create_race_no_retry_cex :
    form_valid ⟨[], []⟩ 0 1 (fun _ => 0) 0 ["aaaaaa"] "example.com" none =
      (CreateResult.genericError, ⟨[], []⟩, 1) := by
  decide

/-- C5 (amended): when the INSERT of the new row hits a storage-level
uniqueness violation despite the generator's clean pre-check, the Create
operation performs no retry: exactly one insert attempt is made, the
transaction rolls back leaving the registry unchanged, and the caller
receives the generic `Error creating short URL` outcome (never a
`CodeExhaustedError`, which does not exist in the source). -/
theorem create_race_generic_error (db : DB) (now newId : Nat) (draw : Nat → Nat)
    (digest : Nat) (racedCodes : List String) (link nurl : String) (ca : Option String)
    (hval : validate_url link = Except.ok nurl) (hsafe : is_safe_url nurl = true)
    (hdedup : ca = none → dedupLookup db nurl = none)
    (hviol : (violatesUnique db.links (newRow db now newId draw digest nurl ca) ||
              racedCodes.contains (newRow db now newId draw digest nurl ca).short_code) = true) :
    form_valid db now newId draw digest racedCodes link ca =
      (CreateResult.genericError, db, 1) := by
  unfold form_valid
  rw [hval]
  simp only [hsafe, Bool.not_true, Bool.false_eq_true, if_false]
  cases ca with
  | none =>
      rw [hdedup rfl]
      dsimp only
      rw [if_pos hviol]
  | some a =>
      dsimp only
      rw [if_pos hviol]

theorem create_race_generic_error_witness :
    (validate_url "example.com" = Except.ok "https://example.com" ∧
     is_safe_url "https://example.com" = true ∧
     dedupLookup ⟨[], []⟩ "https://example.com" = none ∧
     (violatesUnique ([] : List ShortLink)
        (newRow ⟨[], []⟩ 0 1 (fun _ => 0) 0 "https://example.com" none) ||
      ["aaaaaa"].contains
        (newRow ⟨[], []⟩ 0 1 (fun _ => 0) 0 "https://example.com" none).short_code) = true) ∧
    form_valid ⟨[], []⟩ 0 1 (fun _ => 0) 0 ["aaaaaa"] "example.com" none =
      (CreateResult.genericError, ⟨[], []⟩, 1) :=
  ⟨⟨by rfl, by decide, by decide, by decide⟩,
   create_race_generic_error ⟨[], []⟩ 0 1 (fun _ => 0) 0 ["aaaaaa"] "example.com"
     "https://example.com" none (by rfl) (by decide) (fun _ => by decide) (by decide)⟩

/-! ### C6: alias validation -/

/-- C6 counterexample: Python's `re.match(r'^[a-zA-Z0-9_-]+$', ...)` also
matches when a single trailing newline follows the matched characters
(that is how `$` behaves without `re.MULTILINE`), so
`is_valid_custom_alias "ab\n"` is `True` although `"ab\n"` is not a full
match of the character class, which is what the spec's rules require. -/
theorem alias_newline_cex :
    is_valid_custom_alias "ab\n" = true ∧ specValidAlias "ab\n" = false :=
  ⟨by decide, by decide⟩

/-- C6 (amended): `is_valid_custom_alias` accepts exactly the aliases
passing the spec's rules with the pattern rule read under Python `re.match`
semantics (`$` tolerates one trailing newline): empty is valid, otherwise
length in `[3,50]`, the pattern match, and lowercase form not in the
17-word reserved set; in particular `admin` (reserved), `ab` (too short)
and `my link` (space) are rejected while `my-link_1` is accepted. -/
theorem is_valid_custom_alias_spec (a : String) :
    is_valid_custom_alias a = specValidAliasAmended a ∧
    is_valid_custom_alias "admin" = false ∧
    is_valid_custom_alias "ab" = false ∧
    is_valid_custom_alias "my-link_1" = true ∧
    is_valid_custom_alias "my link" = false := by
  refine ⟨?_, by decide, by decide, by decide, by decide⟩
  unfold is_valid_custom_alias specValidAliasAmended
  cases h0 : a == ""
  · cases h3 : reMatchAliasPattern a.data
    · simp [h0, h3]
    · cases h4 : reserved_words.contains (pyLower a)
      · by_cases h1 : a.length < 3
        · have h1' : ¬ 3 ≤ a.length := by omega
          simp [h0, h1, h1', h3, h4]
        · have h1' : 3 ≤ a.length := by omega
          by_cases h2 : 50 < a.length
          · have h2' : ¬ a.length ≤ 50 := by omega
            simp [h0, h1, h2, h1', h2', h3, h4]
          · have h2' : a.length ≤ 50 := by omega
            simp [h0, h1, h2, h1', h2', h3, h4]
      · simp [h0, h3, h4]
  · simp [h0]

/-! ### C7: URL normalization -/

theorem splitScheme_https (u : List Char) :
    splitScheme ("https://".data ++ u) = ("https".data, '/' :: '/' :: u) := rfl

theorem urlsplitL_https (u : List Char) (hclean : u.all (fun c => !unsafeUrlChar c) = true)
    (hbr : bracketMismatch (u.takeWhile (fun c => !netlocEnd c)) = false) :
    urlsplitL ("https://".data ++ u) = Except.ok ("https".data,
      u.takeWhile (fun c => !netlocEnd c),
      (querySplit (fragSplit (u.dropWhile (fun c => !netlocEnd c))).1).1,
      (querySplit (fragSplit (u.dropWhile (fun c => !netlocEnd c))).1).2,
      (fragSplit (u.dropWhile (fun c => !netlocEnd c))).2) := by
  have hfil : ("https://".data ++ u).filter (fun c => !unsafeUrlChar c) = "https://".data ++ u := by
    have h1 : ("https://".data).filter (fun c => !unsafeUrlChar c) = "https://".data := by decide
    have h2 : u.filter (fun c => !unsafeUrlChar c) = u :=
      List.filter_eq_self.mpr (by simpa using hclean)
    rw [List.filter_append, h1, h2]
  unfold urlsplitL
  dsimp only
  rw [hfil, splitScheme_https]
  dsimp only
  simp only [List.take_succ_cons, List.take_zero, List.drop_succ_cons, List.drop_zero, if_true]
  rw [hbr]
  simp only [Bool.false_eq_true, if_false]

theorem urlparseL_https (u : List Char) (hclean : u.all (fun c => !unsafeUrlChar c) = true)
    (hbr : bracketMismatch (u.takeWhile (fun c => !netlocEnd c)) = false) :
    urlparseL ("https://".data ++ u) = Except.ok
      ⟨"https".data,
       u.takeWhile (fun c => !netlocEnd c),
       (paramsSplit "https".data (querySplit (fragSplit (u.dropWhile (fun c => !netlocEnd c))).1).1).1,
       (paramsSplit "https".data (querySplit (fragSplit (u.dropWhile (fun c => !netlocEnd c))).1).1).2,
       (querySplit (fragSplit (u.dropWhile (fun c => !netlocEnd c))).1).2,
       (fragSplit (u.dropWhile (fun c => !netlocEnd c))).2⟩ := by
  unfold urlparseL
  rw [urlsplitL_https u hclean hbr]

theorem urlunparseL_https_shape (netloc p par q f : List Char) (hn : netloc ≠ []) :
    urlunparseL ⟨"https".data, netloc, p, par, q, f⟩ =
      "https://".data ++ netloc ++
        (let url := if !par.isEmpty then p ++ ';' :: par else p
         let url := if !url.isEmpty && url.take 1 ≠ ['/'] then '/' :: url else url
         let url := if !q.isEmpty then url ++ '?' :: q else url
         if !f.isEmpty then url ++ '#' :: f else url) := by
  unfold urlunparseL urlunsplitL
  dsimp only
  have hne : netloc.isEmpty = false := by
    cases hx : netloc
    · exact absurd hx hn
    · rfl
  have hcat : ∀ z : List Char, "https".data ++ ':' :: '/' :: '/' :: z = "https://".data ++ z :=
    fun z => rfl
  have hsch : ("https".data : List Char).isEmpty = false := by decide
  simp only [hne, Bool.not_false, Bool.true_or, if_true, hsch, if_true]
  cases hq : q.isEmpty <;> cases hf : f.isEmpty <;>
    simp [hq, hf, hcat, List.append_assoc]

theorem validate_url_noscheme (u : String) (hns : startsWithHttpScheme u.data = false)
    (hclean : u.data.all (fun c => !unsafeUrlChar c) = true)
    (hbr : bracketMismatch (hostOf u) = false) (hhost : hostOf u ≠ []) :
    validate_url u =
      Except.ok ⟨"https://".data ++ (hostOf u).map Char.toLower ++ normTail (tailOf u)⟩ := by
  have hne : (u == "") = false := by
    cases hu : u == ""
    · rfl
    · exfalso
      apply hhost
      have hu' : u = "" := by simpa using hu
      simp [hostOf, hu']
  unfold validate_url
  simp only [hne, hns, Bool.false_eq_true, if_false]
  rw [urlparseL_https u.data hclean (by simpa [hostOf] using hbr)]
  dsimp only
  have hls : (u.data.takeWhile (fun c => !netlocEnd c)).isEmpty = false := by
    cases hx : u.data.takeWhile (fun c => !netlocEnd c)
    · exact absurd hx (by simpa [hostOf] using hhost)
    · rfl
  simp only [hls, Bool.false_eq_true, if_false]
  rw [urlunparseL_https_shape _ _ _ _ _
        (fun h => hhost (by simpa [hostOf] using List.map_eq_nil_iff.mp h))]
  rfl

theorem validate_url_error_iff (u : String) :
    validate_url u = Except.error () ↔
      (u = "" ∨ urlparseL (prepend_https u) = Except.error () ∨
       ∃ p : ParseResult, urlparseL (prepend_https u) = Except.ok p ∧ p.netloc = []) := by
  unfold validate_url prepend_https
  cases hu : u == ""
  · have hu' : ¬ u = "" := by simpa using hu
    simp only [Bool.false_eq_true, if_false]
    cases hp : urlparseL (if startsWithHttpScheme u.data then u.data else "https://".data ++ u.data) with
    | error e =>
        cases e
        simp [hu', hp]
    | ok parsed =>
        cases hn : parsed.netloc.isEmpty
        · have hnn : ¬ parsed.netloc = [] := by
            intro hx
            rw [hx] at hn
            simp at hn
          simp [hu', hp, hn, hnn]
        · have hnil : parsed.netloc = [] := by
            cases hx : parsed.netloc
            · rfl
            · rw [hx] at hn; simp at hn
          simp [hu', hp, hn, hnil]
  · have hu' : u = "" := by simpa using hu
    simp [hu']

/-- C7: `validate_url` (the URL Normalizer): `normalize("example.com")` is
`"https://example.com"`; it fails exactly when the input is empty or no host
can be parsed from the (possibly `https://`-prefixed) input — the parser
raising on mismatched IPv6 brackets, or the parsed netloc coming out empty;
and for every scheme-less input (no tab/CR/LF, a parseable non-empty host)
it returns the input with `https://` prepended and the host lowercased,
the rest passed through the parse/unparse round trip (`normTail`), which is
the identity on well-formed tails. -/
theorem validate_url_spec :
    (validate_url "example.com" = Except.ok "https://example.com") ∧
    (∀ u : String, validate_url u = Except.error () ↔
       (u = "" ∨ urlparseL (prepend_https u) = Except.error () ∨
        ∃ p : ParseResult, urlparseL (prepend_https u) = Except.ok p ∧ p.netloc = [])) ∧
    (∀ u : String, startsWithHttpScheme u.data = false →
       u.data.all (fun c => !unsafeUrlChar c) = true →
       bracketMismatch (hostOf u) = false →
       hostOf u ≠ [] →
       validate_url u =
         Except.ok ⟨"https://".data ++ (hostOf u).map Char.toLower ++ normTail (tailOf u)⟩) ∧
    (∀ u : String, startsWithHttpScheme u.data = false →
       u.data.all (fun c => !unsafeUrlChar c) = true →
       bracketMismatch (hostOf u) = false →
       hostOf u ≠ [] →
       normTail (tailOf u) = tailOf u →
       validate_url u =
         Except.ok ⟨"https://".data ++ (hostOf u).map Char.toLower ++ tailOf u⟩) :=
  ⟨by rfl, validate_url_error_iff, validate_url_noscheme,
   fun u h1 h2 h3 h4 h5 => by rw [validate_url_noscheme u h1 h2 h3 h4, h5]⟩

theorem validate_url_spec_witness :
    (startsWithHttpScheme "example.com".data = false ∧
     "example.com".data.all (fun c => !unsafeUrlChar c) = true ∧
     bracketMismatch (hostOf "example.com") = false ∧
     hostOf "example.com" ≠ [] ∧
     normTail (tailOf "example.com") = tailOf "example.com") ∧
    validate_url "example.com" =
      Except.ok ⟨"https://".data ++ (hostOf "example.com").map Char.toLower ++ tailOf "example.com"⟩ :=
  ⟨⟨by decide, by decide, by decide, by decide, by decide⟩,
   validate_url_spec.2.2.2 "example.com" (by decide) (by decide) (by decide) (by decide) (by decide)⟩

end UrlShortner
